import Mathlib

/-!
Verification of the Telegram-backed blob storage wrapper
(`BackEnd/telegram_client.py`).

The Python module manages a pool of Telethon client sessions and offers
four operations that the claims concern: `start` (startup sequencing with
FloodWait handling), `upload_file` (send a local file as a channel
message, with filename sanitization, thumbnail handling and content
attributes), `get_file_info` (metadata lookup with worker rotation and a
cache-refresh retry) and `stream_file` (range-bounded chunk streaming
with failover on resolution errors).

The embedding below is a direct shallow translation of that module:
 - Telethon messages become `TGMessage`/`TGFile` records;
 - a session's observable fetch behaviour becomes `FetchResult`
   (it either raises, returns no message, or returns a message);
 - the transport's chunk source (`iter_download`) is an abstract
   function producing a list of byte chunks, exactly as the claims
   quantify over it;
 - Python `try/except` becomes case analysis on these outcome types;
 - filenames and filesystem paths are lists of characters.
-/

namespace LazyIO

/-- File payload metadata carried by a Telegram message
(`message.file` in Telethon).  `name`/`mime_type` are `none` when the
corresponding Python attribute is falsy (absent or empty). -/
structure TGFile where
  name : Option String
  mime_type : Option String
  size : Int
deriving DecidableEq, Repr

/-- A Telegram message as seen by the wrapper: whether it carries media
(`message.media` truthy) and its file payload. -/
structure TGMessage where
  hasMedia : Bool
  file : TGFile
deriving DecidableEq, Repr

/-- Observable outcome of one `client.get_messages(bin_channel, ids=...)`
call on one session: the call either raises an exception, or returns
`None` (modelled `result none`), or returns a message. -/
inductive FetchResult where
  | throws
  | result (m : Option TGMessage)
deriving DecidableEq, Repr

/-- A session "sees" the message when its fetch returns a message that
carries media (the condition every lookup path in the module tests). -/
def sees : FetchResult → Option TGMessage
  | .result (some m) => if m.hasMedia then some m else none
  | _ => none

/-! ## stream_file: clamping and the emission loop -/

/-- The limit adjustment in `stream_file`
(`if limit <= 0: limit = file_size - offset`). Note the code performs no
other adjustment: a positive `limit` is kept as supplied. -/
def effLimit (file_size offset limit : Int) : Int :=
  if limit ≤ 0 then file_size - offset else limit

/-- The emission loop of `stream_file` over the chunk sequence produced
by the transport (`async for chunk in client.iter_download(...)`): an
empty chunk stops the loop before yielding; otherwise the chunk is
yielded whole, `remaining` is decremented by its length, and the loop
stops when `remaining ≤ 0`.  Returns the list of yielded chunks. -/
def streamChunks (remaining : Int) : List (List Nat) → List (List Nat)
  | [] => []
  | c :: rest =>
    if c.isEmpty then []
    else if remaining - c.length ≤ 0 then [c]
    else c :: streamChunks (remaining - c.length) rest

/-- Total number of bytes in a list of chunks. -/
def totalLen (l : List (List Nat)) : Nat := (l.map List.length).sum

/-- First part of `stream_file`: resolve the message.  The randomly
chosen worker's fetch is attempted; only when that fetch *raises* does
the code scan the other workers (`except Exception: ... for i in
range(len(self.clients)): if i == worker_idx: continue ...`).  A `None`
result or a message without media leads directly to `FileNotFound`
(modelled as `none`). -/
def failoverScan (sessions : List FetchResult) (widx : Nat) : Option (Nat × TGMessage) :=
  (List.range sessions.length).findSome? fun i =>
    if i = widx then none
    else match sessions.getD i .throws with
      | .result (some m) => if m.hasMedia then some (i, m) else none
      | _ => none

/-- Resolution step of `stream_file`: outcome of the chosen worker's
fetch, with the failover scan run only on the exception path, followed
by the `if not message or not message.media: raise FileNotFound` check. -/
def streamResolve (sessions : List FetchResult) (widx : Nat) : Option (Nat × TGMessage) :=
  match sessions.getD widx .throws with
  | .throws => failoverScan sessions widx
  | .result none => none
  | .result (some m) => if m.hasMedia then some (widx, m) else none

/-- Whole `stream_file` pipeline: resolve the message, compute the
effective limit from the resolved message's size, then run the emission
loop on whatever chunk sequence the transport yields for the requested
window.  `none` models raising `FileNotFound`. -/
def stream_file (sessions : List FetchResult) (widx : Nat) (offset limit : Int)
    (transport : Int → Int → List (List Nat)) : Option (List (List Nat)) :=
  match streamResolve sessions widx with
  | none => none
  | some (_, msg) =>
    let eff := effLimit msg.file.size offset limit
    some (streamChunks eff (transport offset eff))

/-! ## get_file_info: worker rotation and metadata defaults -/

/-- One lookup worker's observable behaviour inside `get_file_info`:
the first `get_messages` call, whether the cache refresh
(`get_input_entity`) succeeds, and the retried `get_messages` call. -/
structure InfoSession where
  fetch1 : FetchResult
  refreshOk : Bool
  fetch2 : FetchResult
deriving DecidableEq, Repr

/-- Default session used for out-of-range indexing. -/
def dfltInfoSession : InfoSession := ⟨.throws, false, .throws⟩

/-- One iteration body of the `get_file_info` loop for a single worker:
fetch the message; when the fetch returns `None`, refresh the entity
cache and retry once inside a `try/except: pass` (so a raising refresh
or retry leaves the message `None`); a raising first fetch takes the
outer `except` branch (`error`). -/
def workerInfo (s : InfoSession) : Except Unit (Option TGMessage) :=
  match s.fetch1 with
  | .throws => .error ()
  | .result (some m) => .ok (some m)
  | .result none =>
    if s.refreshOk then
      match s.fetch2 with
      | .throws => .ok none
      | .result m2 => .ok m2
    else .ok none

/-- Whether a lookup worker ends up seeing a message with media
(possibly thanks to the one refresh-and-retry). -/
def seesInfo (s : InfoSession) : Option TGMessage :=
  match workerInfo s with
  | .ok (some m) => if m.hasMedia then some m else none
  | _ => none

/-- The `for i in range(len(self.clients))` loop of `get_file_info`,
given the already-rotated index order: return on the first worker whose
fetch yields a message with media, otherwise keep going. -/
def infoLoop (sessions : List InfoSession) : List Nat → Option TGMessage
  | [] => none
  | idx :: rest =>
    match workerInfo (sessions.getD idx dfltInfoSession) with
    | .ok (some m) => if m.hasMedia then some m else infoLoop sessions rest
    | _ => infoLoop sessions rest

/-- Index order visited by `get_file_info`:
`idx = (start_idx + i) % len(self.clients)` for `i = 0 .. n-1`. -/
def rotation (n start_idx : Nat) : List Nat :=
  (List.range n).map fun i => (start_idx + i) % n

/-- The metadata dictionary returned by `get_file_info`. -/
structure FileInfo where
  file_name : String
  mime_type : String
  file_size : Int
deriving DecidableEq, Repr

/-- The result dictionary built by `get_file_info` from a message with
media: `message.file.name or f"file_{message_id}.mp3"` and
`message.file.mime_type or mimetypes.guess_type(message.file.name or
"")[0] or "audio/mpeg"`.  `guess` abstracts `mimetypes.guess_type`. -/
def fileInfoOf (guess : String → Option String) (message_id : Nat) (m : TGMessage) : FileInfo :=
  { file_name := m.file.name.getD ("file_" ++ toString message_id ++ ".mp3")
  , mime_type :=
      ((m.file.mime_type).orElse fun _ => guess ((m.file.name).getD "")).getD "audio/mpeg"
  , file_size := m.file.size }

/-- Whole `get_file_info`: rotate through all workers from the random
start index and return the metadata of the first that sees the message;
`none` models raising `FileNotFound` after the loop. -/
def get_file_info (guess : String → Option String) (sessions : List InfoSession)
    (start_idx message_id : Nat) : Option FileInfo :=
  (infoLoop sessions (rotation sessions.length start_idx)).map (fileInfoOf guess message_id)

/-! ## upload_file: sanitization, thumbnails, attributes, progress -/

/-- Character replacement performed first by `_sanitize_filename`:
`filename.replace('｜', '-').replace('|', '-')`. -/
def sanitizeMap (c : Char) : Char := if c = '｜' || c = '|' then '-' else c

/-- The character class removed by `re.sub(r'[<>:"/\\?*]', '', ...)`. -/
def isIllegalChar (c : Char) : Bool :=
  c = '<' || c = '>' || c = ':' || c = '"' || c = '/' || c = '\\' || c = '?' || c = '*'

/-- Replacement plus removal steps of `_sanitize_filename`. -/
def sanitizeChars (s : List Char) : List Char :=
  (s.map sanitizeMap).filter fun c => !(isIllegalChar c)

/-- Index of the last `'.'` in a name (`str.rfind('.')`). -/
def rfindDot (s : List Char) : Option Nat :=
  match s.reverse.findIdx? (· = '.') with
  | none => none
  | some j => some (s.length - 1 - j)

/-- `os.path.splitext` for a plain name without path separators: split
at the last dot, except that a run of dots at the very start of the
name is not an extension (`.bashrc` has none). -/
def splitext (s : List Char) : List Char × List Char :=
  match rfindDot s with
  | none => (s, [])
  | some i => if (s.take i).any (fun c => c ≠ '.') then (s.take i, s.drop i) else (s, [])

/-- `_sanitize_filename`: replace, strip, and when the result exceeds
200 characters keep `name[:195] + ext` from `os.path.splitext`. -/
def sanitize_filename (s : List Char) : List Char :=
  let f := sanitizeChars s
  if 200 < f.length then (splitext f).1.take 195 ++ (splitext f).2 else f

/-- Content attributes attached by `upload_file` (`DocumentAttribute*`
values in Telethon). -/
inductive DocAttribute where
  | video (duration : Nat) (supportsStreaming : Bool)
  | audio (duration : Nat) (title performer : Option String)
  | filename (name : List Char)
deriving DecidableEq, Repr

/-- `mime_type and mime_type.startswith('video')` with the guessed MIME
type modelled as an optional character list. -/
def isVideoMime : Option (List Char) → Bool
  | some m => List.isPrefixOf "video".toList m
  | none => false

/-- `mime_type and mime_type.startswith('audio')`. -/
def isAudioMime : Option (List Char) → Bool
  | some m => List.isPrefixOf "audio".toList m
  | none => false

/-- Attribute construction in `upload_file`: a video MIME type yields a
streaming-capable video attribute, else an audio MIME type yields an
audio attribute with duration/title/performer; the filename attribute
is appended only under `if clean_name != os.path.basename(file_path)`. -/
def buildAttributes (mime : Option (List Char)) (duration : Nat)
    (title performer : Option String) (baseName : List Char) : List DocAttribute :=
  let clean := sanitize_filename baseName
  (if isVideoMime mime then [.video duration true]
   else if isAudioMime mime then [.audio duration title performer]
   else [])
  ++ (if clean ≠ baseName then [.filename clean] else [])

/-- `thumbnail.startswith("http://") or thumbnail.startswith("https://")`
— the check under which `upload_file` downloads a temporary thumbnail. -/
def isUrlPath (t : List Char) : Bool :=
  List.isPrefixOf "http://".toList t || List.isPrefixOf "https://".toList t

/-- `thumbnail.startswith("http")` — the weaker check used by the
`finally` cleanup. -/
def startsWithHttp (t : List Char) : Bool :=
  List.isPrefixOf "http".toList t

/-- Observable outcome of one `upload_file` call: the returned value
(`some` message id on success, `none` when the send raised) and the
path removed by the `finally` cleanup, if any. -/
structure UploadResult where
  result : Option Nat
  removed : Option (List Char)
deriving DecidableEq, Repr

/-- `upload_file`'s thumbnail handling, send step and `finally` cleanup.
`fileExists` models `os.path.exists` at each check, `fetchOk` the
success of the thumbnail download, `sendOk` whether `send_file` returns
normally, `tempPath` the generated `thumb_{uuid}.jpg` path. -/
def upload_file (fileExists : List Char → Bool) (thumbnail : Option (List Char))
    (fetchOk sendOk : Bool) (tempPath : List Char) (msgId : Nat) : UploadResult :=
  let thumb_path : Option (List Char) :=
    match thumbnail with
    | some t =>
      if isUrlPath t then (if fetchOk then some tempPath else none)
      else if fileExists t then some t
      else none
    | none => none
  let res : Option Nat := if sendOk then some msgId else none
  let removed : Option (List Char) :=
    match thumb_path, thumbnail with
    | some p, some t => if startsWithHttp t && fileExists p then some p else none
    | _, _ => none
  { result := res, removed := removed }

/-- Instantaneous speed reported by the `_progress` closure:
`speed = current / elapsed if elapsed > 0 else 0`, over exact rationals
in place of Python floats. -/
def progressSpeed (current elapsed : ℚ) : ℚ :=
  if elapsed > 0 then current / elapsed else 0

/-! ## start: per-worker retry loop -/

/-- Outcome of one `client.start(bot_token=...)` call. -/
inductive StartOutcome where
  | ok
  | floodWait (seconds : Nat)
  | err
deriving DecidableEq, Repr

/-- Observable result of the per-worker startup loop: whether the
worker came online, how many `start` calls were made, and the total
seconds slept on FloodWait (each wait is `e.seconds + 1`). -/
structure StartResult where
  started : Bool
  calls : Nat
  slept : Nat
deriving DecidableEq, Repr

/-- The `for attempt in range(max_retries)` body of `start` for one
worker: `outcomes k` is what the `(k+1)`-th `start` call would do.  On
success the loop breaks; on FloodWait it sleeps `seconds + 1` and the
loop moves to the next attempt; on any other error it likewise moves on. -/
def startGo (outcomes : Nat → StartOutcome) : Nat → Nat → StartResult
  | _, 0 => ⟨false, 0, 0⟩
  | attempt, r + 1 =>
    match outcomes attempt with
    | .ok => ⟨true, 1, 0⟩
    | .floodWait s =>
      let res := startGo outcomes (attempt + 1) r
      ⟨res.started, res.calls + 1, res.slept + (s + 1)⟩
    | .err =>
      let res := startGo outcomes (attempt + 1) r
      ⟨res.started, res.calls + 1, res.slept⟩

/-- Startup of one worker with `max_retries = 3`. -/
def start_worker (outcomes : Nat → StartOutcome) : StartResult :=
  startGo outcomes 0 3

/-! ## Helper lemmas -/

/-- `findSome?` returns `none` exactly when the function returns `none`
on every element. -/
theorem findSome?_eq_none_iff {α β : Type} (f : α → Option β) (l : List α) :
    l.findSome? f = none ↔ ∀ a ∈ l, f a = none := by
  induction l with
  | nil => simp [List.findSome?]
  | cons x xs ih =>
    cases hfx : f x with
    | some b => simp [List.findSome?_cons, hfx]
    | none => simp [List.findSome?_cons, hfx, ih]

/-- Every index below the pool size is visited by the rotation order. -/
theorem mem_rotation (n start_idx j : Nat) (hj : j < n) : j ∈ rotation n start_idx := by
  have hn : 0 < n := Nat.lt_of_le_of_lt (Nat.zero_le j) hj
  have hq := Nat.div_add_mod start_idx n
  have hsle : start_idx % n ≤ start_idx := Nat.mod_le start_idx n
  have hs : start_idx % n ≤ j + n :=
    le_trans (Nat.le_of_lt (Nat.mod_lt _ hn)) (Nat.le_add_left n j)
  refine List.mem_map.mpr
    ⟨(j + n - start_idx % n) % n, List.mem_range.mpr (Nat.mod_lt _ hn), ?_⟩
  have h1 : start_idx + (j + n - start_idx % n) = n * (start_idx / n) + (j + n) :=
    calc start_idx + (j + n - start_idx % n)
        = start_idx + (j + n) - start_idx % n := (Nat.add_sub_assoc hs start_idx).symm
      _ = start_idx - start_idx % n + (j + n) := Nat.sub_add_comm hsle
      _ = n * (start_idx / n) + (j + n) := by rw [Nat.sub_eq_of_eq_add hq.symm]
  rw [Nat.add_mod_mod, h1, Nat.mul_add_mod, Nat.add_mod_right]
  exact Nat.mod_eq_of_lt hj

/-- Every index visited by the rotation order is below the pool size. -/
theorem rotation_lt (n start_idx : Nat) : ∀ j ∈ rotation n start_idx, j < n := by
  intro j hj
  rcases List.mem_map.mp hj with ⟨i, hi, rfl⟩
  exact Nat.mod_lt _ (Nat.lt_of_le_of_lt (Nat.zero_le i) (List.mem_range.mp hi))

/-- Head unfolding of the `get_file_info` loop, phrased through
`seesInfo`. -/
theorem infoLoop_cons (sessions : List InfoSession) (idx : Nat) (rest : List Nat) :
    infoLoop sessions (idx :: rest)
      = match seesInfo (sessions.getD idx dfltInfoSession) with
        | some m => some m
        | none => infoLoop sessions rest := by
  have h : ∀ s : InfoSession,
      (match workerInfo s with
       | Except.ok (some m) => if m.hasMedia then some m else infoLoop sessions rest
       | _ => infoLoop sessions rest)
      = match seesInfo s with
        | some m => some m
        | none => infoLoop sessions rest := by
    intro s
    unfold seesInfo
    cases workerInfo s with
    | error e => rfl
    | ok m =>
      cases m with
      | none => rfl
      | some msg =>
        by_cases hm : msg.hasMedia
        · simp [hm]
        · simp [hm]
  exact h (sessions.getD idx dfltInfoSession)

/-- The `get_file_info` loop is a first-hit search for a worker that
sees the message. -/
theorem infoLoop_eq_findSome? (sessions : List InfoSession) (order : List Nat) :
    infoLoop sessions order
      = order.findSome? fun idx => seesInfo (sessions.getD idx dfltInfoSession) := by
  induction order with
  | nil => rfl
  | cons idx rest ih =>
    rw [infoLoop_cons, List.findSome?_cons, ih]
    cases seesInfo (sessions.getD idx dfltInfoSession) <;> rfl

/-- The failover scan of `stream_file` finds nothing exactly when no
other worker sees the message. -/
theorem failoverScan_eq_none_iff (sessions : List FetchResult) (widx : Nat) :
    failoverScan sessions widx = none ↔
      ∀ i, i < sessions.length → i ≠ widx → sees (sessions.getD i .throws) = none := by
  rw [failoverScan, findSome?_eq_none_iff]
  constructor
  · intro h i hi hne
    have h2 := h i (List.mem_range.mpr hi)
    rw [if_neg hne] at h2
    revert h2
    cases sessions.getD i FetchResult.throws with
    | throws => intro _; rfl
    | result m =>
      cases m with
      | none => intro _; rfl
      | some msg =>
        intro h2
        simp only [sees]
        by_cases hm : msg.hasMedia
        · simp [hm] at h2
        · simp [hm]
  · intro h i hmem
    by_cases hiw : i = widx
    · simp [hiw]
    · rw [if_neg hiw]
      have h2 := h i (List.mem_range.mp hmem) hiw
      revert h2
      cases sessions.getD i FetchResult.throws with
      | throws => intro _; rfl
      | result m =>
        cases m with
        | none => intro _; rfl
        | some msg =>
          intro h2
          simp only [sees] at h2
          by_cases hm : msg.hasMedia
          · simp [hm] at h2
          · simp [hm]

/-- The sanitization replacement never produces a vertical bar. -/
theorem sanitizeMap_ne (c : Char) : sanitizeMap c ≠ '|' ∧ sanitizeMap c ≠ '｜' := by
  unfold sanitizeMap
  by_cases h : (c = '｜' || c = '|') = true
  · rw [if_pos h]
    exact ⟨by decide, by decide⟩
  · rw [if_neg h]
    simp only [Bool.or_eq_true, decide_eq_true_eq] at h
    push_neg at h
    exact ⟨h.2, h.1⟩

/-- Characters surviving replacement and removal: not illegal, no bars. -/
theorem mem_sanitizeChars (s : List Char) (c : Char) (hc : c ∈ sanitizeChars s) :
    isIllegalChar c = false ∧ c ≠ '|' ∧ c ≠ '｜' := by
  rcases List.mem_filter.mp hc with ⟨hmem, hleg⟩
  rcases List.mem_map.mp hmem with ⟨c0, _, rfl⟩
  refine ⟨by simpa using hleg, (sanitizeMap_ne c0).1, (sanitizeMap_ne c0).2⟩

/-- Both `splitext` components consist of characters of the input. -/
theorem splitext_subset (s : List Char) : (splitext s).1 ⊆ s ∧ (splitext s).2 ⊆ s := by
  unfold splitext
  cases rfindDot s with
  | none => exact ⟨fun _ h => h, fun _ h => by simp at h⟩
  | some i =>
    by_cases h : (s.take i).any (fun c => c ≠ '.')
    · simp only [if_pos h]
      exact ⟨List.take_subset i s, List.drop_subset i s⟩
    · simp only [if_neg h]
      exact ⟨fun _ h => h, fun _ h => by simp at h⟩

/-- Every character of the sanitized filename already survived the
replacement and removal steps. -/
theorem mem_sanitize_filename (s : List Char) (c : Char) (hc : c ∈ sanitize_filename s) :
    c ∈ sanitizeChars s := by
  simp only [sanitize_filename] at hc
  by_cases h : 200 < (sanitizeChars s).length
  · rw [if_pos h] at hc
    rcases List.mem_append.mp hc with h1 | h2
    · exact (splitext_subset (sanitizeChars s)).1 (List.take_subset 195 _ h1)
    · exact (splitext_subset (sanitizeChars s)).2 h2
  · rw [if_neg h] at hc
    exact hc

/-! ## Claim C1 -/

/-- C1 counterexample: for a requested (clamped) length of 1 byte, a
transport that yields a single two-byte chunk makes `stream_file` emit
2 bytes — the cumulative emitted length exceeds the requested length,
and a byte past the requested window is yielded.  The loop yields the
chunk whole before it checks `remaining <= 0`. -/
theorem stream_overshoot_cex :
    streamChunks 1 [[0, 0]] = [[0, 0]]
    ∧ ¬ (totalLen (streamChunks 1 [[0, 0]]) ≤ 1) := by decide

/-- C1 (amended): emission stops at the first chunk at which the
cumulative emitted length reaches the requested length — no chunk is
yielded after the cumulative length has reached the limit.  Formally,
for every emitted chunk other than the last one, the cumulative length
up to and including it is still strictly below the requested length
(so the total emitted length can exceed the requested length only by
part of the final chunk). -/
theorem stream_stops_after_limit (limit : Int) (chunks : List (List Nat)) (k : Nat)
    (hk : k + 1 < (streamChunks limit chunks).length) :
    (totalLen ((streamChunks limit chunks).take (k + 1)) : Int) < limit := by
  induction chunks generalizing limit k with
  | nil => simp [streamChunks] at hk
  | cons c rest ih =>
    by_cases hce : c.isEmpty
    · simp [streamChunks, hce] at hk
    · by_cases hr : limit - (c.length : Int) ≤ 0
      · simp [streamChunks, hce, hr] at hk
      · have hs : streamChunks limit (c :: rest)
            = c :: streamChunks (limit - c.length) rest := by
          simp [streamChunks, hce, hr]
        rw [hs] at hk ⊢
        cases k with
        | zero =>
          simp only [List.take_succ_cons, List.take_zero, totalLen, List.map_cons,
            List.map_nil, List.sum_cons, List.sum_nil]
          omega
        | succ j =>
          have hk' : j + 1 < (streamChunks (limit - c.length) rest).length := by
            simpa using hk
          have hrec := ih (limit - c.length) j hk'
          simp only [List.take_succ_cons, totalLen, List.map_cons, List.sum_cons] at hrec ⊢
          push_cast at hrec ⊢
          omega

/-- C1 witness: with a requested length of 3 and transport chunks of
sizes 2 and 1, the first (non-final) emitted chunk leaves the
cumulative length 2 strictly below 3. -/
theorem stream_stops_after_limit_witness :
    (totalLen ((streamChunks 3 [[0, 0], [0]]).take 1) : Int) < 3 :=
  stream_stops_after_limit 3 [[0, 0], [0]] 0 (by decide)

/-! ## Claim C2 -/

/-- C2 counterexample: with total size 5, offset 0 and supplied length
100, `stream_file` keeps the length at 100 — it is not clamped to
`total_size - offset = 5`.  The code adjusts the length only when it is
`≤ 0`. -/
theorem effLimit_no_clamp_cex :
    effLimit 5 0 100 = 100 ∧ ¬ (effLimit 5 0 100 ≤ 5 - 0) := by decide

/-- C2 (amended): when the supplied length is `≤ 0` the effective
length is set to exactly `total_size - offset`; a positive supplied
length is used unchanged (no clamping against `total_size - offset`);
and for `offset ≥ total_size` the call still succeeds — provided the
transport yields no chunks for an at-or-past-end window, the result is
an empty stream, not a `FileNotFound` error. -/
theorem stream_clamp (sessions : List FetchResult) (widx : Nat) (offset limit : Int)
    (transport : Int → Int → List (List Nat)) (i : Nat) (msg : TGMessage)
    (hres : streamResolve sessions widx = some (i, msg)) :
    (limit ≤ 0 → effLimit msg.file.size offset limit = msg.file.size - offset)
    ∧ (0 < limit → effLimit msg.file.size offset limit = limit)
    ∧ (msg.file.size ≤ offset →
        transport offset (effLimit msg.file.size offset limit) = [] →
        stream_file sessions widx offset limit transport = some []) := by
  refine ⟨fun h => ?_, fun h => ?_, fun _ htr => ?_⟩
  · rw [effLimit, if_pos h]
  · rw [effLimit, if_neg (by omega)]
  · rw [stream_file, hres]
    show some (streamChunks (effLimit msg.file.size offset limit)
        (transport offset (effLimit msg.file.size offset limit))) = some []
    rw [htr, streamChunks]

/-- C2 witness: a one-worker pool that sees a 5-byte message; for
`offset = 7 ≥ 5` and supplied length 0, the effective length is
`5 - 7` and the call returns an empty stream rather than an error. -/
theorem stream_clamp_witness :
    effLimit 5 7 0 = 5 - 7
    ∧ stream_file [FetchResult.result (some ⟨true, ⟨none, none, 5⟩⟩)] 0 7 0
        (fun _ _ => []) = some [] := by
  have h := stream_clamp [FetchResult.result (some ⟨true, ⟨none, none, 5⟩⟩)] 0 7 0
    (fun _ _ => []) 0 ⟨true, ⟨none, none, 5⟩⟩ (by decide)
  exact ⟨h.1 (by decide), h.2.2 (by decide) rfl⟩

/-! ## Claim C4 -/

/-- C4 counterexample: the chosen worker's fetch returns `None` without
raising (it cannot see the message), while worker 1 sees a message with
media; `stream_file` still raises `FileNotFound` — no failover scan is
performed, because the scan runs only on the exception path. -/
theorem stream_no_failover_cex :
    streamResolve [FetchResult.result none, .result (some ⟨true, ⟨none, none, 10⟩⟩)] 0 = none
    ∧ sees (([FetchResult.result none,
        .result (some ⟨true, ⟨none, none, 10⟩⟩)]).getD 1 .throws)
        = some ⟨true, ⟨none, none, 10⟩⟩ := by decide

/-- C4 (amended): the failover scan across the remaining Sessions is
performed only when the chosen Session's fetch raises; in that case the
resolution equals the scan result, which fails exactly when no other
Session sees the message (so the operation succeeds whenever some other
Session can see it).  When the chosen Session's fetch returns no
message without raising, `FileNotFound` is raised immediately, without
consulting the other Sessions. -/
theorem stream_failover_spec (sessions : List FetchResult) (widx : Nat) :
    (sessions.getD widx .throws = .throws →
       streamResolve sessions widx = failoverScan sessions widx
       ∧ (streamResolve sessions widx = none ↔
            ∀ i, i < sessions.length → i ≠ widx →
              sees (sessions.getD i .throws) = none))
    ∧ (sessions.getD widx .throws = .result none →
        streamResolve sessions widx = none) := by
  constructor
  · intro h
    have he : streamResolve sessions widx = failoverScan sessions widx := by
      rw [streamResolve, h]
    exact ⟨he, by rw [he]; exact failoverScan_eq_none_iff sessions widx⟩
  · intro h
    rw [streamResolve, h]

/-- C4 witness: worker 0 raises and worker 1 sees the message; the
resolution is exactly the failover scan result. -/
theorem stream_failover_spec_witness :
    streamResolve [FetchResult.throws, .result (some ⟨true, ⟨none, none, 10⟩⟩)] 0
      = failoverScan [FetchResult.throws, .result (some ⟨true, ⟨none, none, 10⟩⟩)] 0 :=
  ((stream_failover_spec [FetchResult.throws,
      .result (some ⟨true, ⟨none, none, 10⟩⟩)] 0).1 rfl).1

/-! ## Claim C3 -/

/-- C3: `get_file_info` is a first-hit search over all Sessions in
rotation order from the pseudo-random start index (each Session getting
the one cache-refresh retry built into `workerInfo`/`seesInfo`), and it
raises `FileNotFound` (returns `none`) exactly when no Session in the
pool sees a message with media — so whenever some Session can see the
message, it returns that metadata and does not raise. -/
theorem get_file_info_spec (guess : String → Option String) (sessions : List InfoSession)
    (start_idx message_id : Nat) :
    get_file_info guess sessions start_idx message_id
      = ((rotation sessions.length start_idx).findSome?
          fun idx => seesInfo (sessions.getD idx dfltInfoSession)).map
            (fileInfoOf guess message_id)
    ∧ (get_file_info guess sessions start_idx message_id = none ↔
        ∀ i, i < sessions.length → seesInfo (sessions.getD i dfltInfoSession) = none) := by
  have h1 : get_file_info guess sessions start_idx message_id
      = ((rotation sessions.length start_idx).findSome?
          fun idx => seesInfo (sessions.getD idx dfltInfoSession)).map
            (fileInfoOf guess message_id) := by
    rw [get_file_info, infoLoop_eq_findSome?]
  refine ⟨h1, ?_⟩
  rw [h1, Option.map_eq_none', findSome?_eq_none_iff]
  constructor
  · intro h i hi
    exact h _ (mem_rotation _ _ _ hi)
  · intro h idx hidx
    exact h _ (rotation_lt _ _ _ hidx)

/-- C3 witness: a one-worker pool whose fetch returns a media message
of size 3 with no declared name or MIME type yields the defaulted
metadata dictionary. -/
theorem get_file_info_spec_witness :
    get_file_info (fun _ => none)
      [⟨.result (some ⟨true, ⟨none, none, 3⟩⟩), false, .throws⟩] 0 7
      = some ⟨"file_7.mp3", "audio/mpeg", 3⟩ := by
  rw [(get_file_info_spec (fun _ => none)
    [⟨.result (some ⟨true, ⟨none, none, 3⟩⟩), false, .throws⟩] 0 7).1]
  decide

/-! ## Claim C5 -/

/-- C5: the claim's first parts hold (a raising send yields a `none`
result, and a URL-downloaded temporary thumbnail is removed in the
`finally` step), but its "never delete a caller-supplied local
thumbnail path" part is violated: a caller-supplied local thumbnail
named `httpcover.jpg` is not a URL (`isUrlPath` is false, so no
temporary file is created and `thumb_path` is the caller's own path),
yet the `finally` cleanup — which only checks
`thumbnail.startswith("http")` — deletes the caller's file, on the
success and the failure path alike. -/
theorem upload_cleanup_bug :
    isUrlPath "httpcover.jpg".toList = false
    ∧ (upload_file (fun _ => true) (some "httpcover.jpg".toList) true true
        "tmp.jpg".toList 7).removed = some "httpcover.jpg".toList
    ∧ (upload_file (fun _ => true) (some "httpcover.jpg".toList) true false
        "tmp.jpg".toList 7).removed = some "httpcover.jpg".toList
    ∧ (upload_file (fun _ => true) (some "httpcover.jpg".toList) true false
        "tmp.jpg".toList 7).result = none
    ∧ (upload_file (fun _ => true) (some "http://x/t.jpg".toList) true false
        "tmp.jpg".toList 7).removed = some "tmp.jpg".toList := by decide

/-! ## Claim C6 -/

/-- C6 counterexample: a worker whose first three `start` calls hit
FloodWait and whose fourth call would succeed.  The claim implies the
rate-limit retries leave the 3-attempt budget untouched, so the worker
would reach the fourth call and start; the code instead makes exactly 3
calls (each FloodWait consuming one attempt of `range(max_retries)`),
sleeps `3 * (5 + 1) = 18` seconds, and leaves the worker not started. -/
theorem start_floodwait_cex :
    start_worker (fun k => if k < 3 then .floodWait 5 else .ok) = ⟨false, 3, 18⟩
    ∧ (fun k => if k < 3 then StartOutcome.floodWait 5 else .ok) 3 = .ok := by decide

/-- C6 (amended): on a FloodWait with wait `s`, the sequencer sleeps
`s + 1` seconds (the declared wait plus a one-second margin) and then
retries the same Session — but this retry consumes one of the bounded
3 attempts like any other failure: after the FloodWait only 2 attempts
remain, and no execution makes more than `max_retries` start calls. -/
theorem start_floodwait_retry (outcomes : Nat → StartOutcome) (s : Nat)
    (h : outcomes 0 = .floodWait s) :
    start_worker outcomes
      = ⟨(startGo outcomes 1 2).started, (startGo outcomes 1 2).calls + 1,
         (startGo outcomes 1 2).slept + (s + 1)⟩
    ∧ ∀ f a r, (startGo f a r).calls ≤ r := by
  constructor
  · show startGo outcomes 0 3 = _
    rw [startGo, h]
  · intro f a r
    induction r generalizing a with
    | zero => simp [startGo]
    | succ n ih =>
      rw [startGo]
      cases f a with
      | ok => simp
      | floodWait s2 => simpa using ih (a + 1)
      | err => simpa using ih (a + 1)

/-- C6 witness: a worker that always hits FloodWait 5 sleeps 6 seconds
on the first attempt and continues with the 2 remaining attempts. -/
theorem start_floodwait_retry_witness :
    start_worker (fun _ => StartOutcome.floodWait 5)
      = ⟨(startGo (fun _ => StartOutcome.floodWait 5) 1 2).started,
         (startGo (fun _ => StartOutcome.floodWait 5) 1 2).calls + 1,
         (startGo (fun _ => StartOutcome.floodWait 5) 1 2).slept + (5 + 1)⟩ :=
  (start_floodwait_retry (fun _ => StartOutcome.floodWait 5) 5 rfl).1

/-! ## Claim C7 -/

set_option maxRecDepth 10000 in
/-- C7 counterexample: the 252-character name `a.bbb…b` (250 `b`s in
the extension) exceeds the 200-character threshold after sanitization,
yet `_sanitize_filename` returns it with 252 characters — `name[:195]`
truncates only the 1-character stem while the 251-character extension
is kept whole, so the result length is not bounded. -/
theorem sanitize_unbounded_cex :
    200 < (sanitizeChars ('a' :: '.' :: List.replicate 250 'b')).length
    ∧ ¬ ((sanitize_filename ('a' :: '.' :: List.replicate 250 'b')).length ≤ 200) := by
  decide

/-- C7 (amended): `_sanitize_filename` replaces `｜` and `|` by `-` and
removes every occurrence of `< > : " / \ ? *`; when the sanitized name
is at most 200 characters it is returned unchanged, and when it exceeds
200 characters the stem is truncated to 195 characters with the
extension preserved, bounding the result only by `195 + ` the extension
length (not by a constant, since the extension is kept whole). -/
theorem sanitize_props (s : List Char) :
    (∀ c ∈ sanitize_filename s, isIllegalChar c = false ∧ c ≠ '|' ∧ c ≠ '｜')
    ∧ ((sanitizeChars s).length ≤ 200 → sanitize_filename s = sanitizeChars s)
    ∧ (200 < (sanitizeChars s).length →
        sanitize_filename s
          = (splitext (sanitizeChars s)).1.take 195 ++ (splitext (sanitizeChars s)).2
        ∧ (sanitize_filename s).length ≤ 195 + (splitext (sanitizeChars s)).2.length) := by
  refine ⟨fun c hc => mem_sanitizeChars s c (mem_sanitize_filename s c hc),
    fun h => ?_, fun h => ?_⟩
  · rw [sanitize_filename]
    exact if_neg (by omega)
  · have he : sanitize_filename s
        = (splitext (sanitizeChars s)).1.take 195 ++ (splitext (sanitizeChars s)).2 := by
      rw [sanitize_filename]
      exact if_pos h
    refine ⟨he, ?_⟩
    rw [he, List.length_append, List.length_take]
    omega

/-- C7 witness: a short clean name passes through unchanged. -/
theorem sanitize_props_witness :
    sanitize_filename ('a' :: 'b' :: []) = sanitizeChars ('a' :: 'b' :: []) :=
  (sanitize_props ('a' :: 'b' :: [])).2.1 (by decide)

/-! ## Claim C8 -/

/-- C8 counterexample: an upload with no guessable MIME type (neither
video nor audio) and an already-clean basename `doc.bin` gets an empty
attribute list — no filename attribute, because the code attaches one
only when sanitization changed the name. -/
theorem attributes_missing_filename_cex :
    buildAttributes none 0 none none "doc.bin".toList = []
    ∧ isVideoMime none = false ∧ isAudioMime none = false := by decide

/-- C8 (amended): a video MIME type yields a streaming-capable video
attribute, a (non-video) audio MIME type yields an audio attribute
carrying duration/title/performer, and any other kind yields no media
attribute; in each case a filename attribute is appended exactly when
the sanitized name differs from the original basename (so a non-video,
non-audio upload with an already-clean name carries no attributes). -/
theorem attributes_by_kind (mime : Option (List Char)) (duration : Nat)
    (title performer : Option String) (baseName : List Char) :
    (isVideoMime mime = true →
      buildAttributes mime duration title performer baseName
        = .video duration true
            :: (if sanitize_filename baseName ≠ baseName
                then [.filename (sanitize_filename baseName)] else []))
    ∧ (isVideoMime mime = false → isAudioMime mime = true →
      buildAttributes mime duration title performer baseName
        = .audio duration title performer
            :: (if sanitize_filename baseName ≠ baseName
                then [.filename (sanitize_filename baseName)] else []))
    ∧ (isVideoMime mime = false → isAudioMime mime = false →
      buildAttributes mime duration title performer baseName
        = (if sanitize_filename baseName ≠ baseName
            then [.filename (sanitize_filename baseName)] else [])) := by
  refine ⟨fun hv => ?_, fun hv ha => ?_, fun hv ha => ?_⟩
  · simp [buildAttributes, hv]
  · simp [buildAttributes, hv, ha]
  · simp [buildAttributes, hv, ha]

/-- C8 witness: a video upload of a file with an already-clean name
`a` carries exactly the streaming-capable video attribute. -/
theorem attributes_by_kind_witness :
    buildAttributes (some "video/mp4".toList) 9 none none "a".toList
      = DocAttribute.video 9 true
          :: (if sanitize_filename "a".toList ≠ "a".toList
              then [DocAttribute.filename (sanitize_filename "a".toList)] else []) :=
  (attributes_by_kind (some "video/mp4".toList) 9 none none "a".toList).1 (by decide)

/-! ## Claim C9 -/

/-- C9: the metadata returned by `get_file_info` is built with total
(never-null) fields: a message with no declared filename gets
`file_{message_id}.mp3`, and a missing MIME type falls back first to
extension-based guessing on the declared name (empty string when the
name is also missing) and then to the constant `audio/mpeg`. -/
theorem file_info_defaults (guess : String → Option String) (message_id : Nat)
    (m : TGMessage) :
    (m.file.name = none →
      (fileInfoOf guess message_id m).file_name
        = "file_" ++ toString message_id ++ ".mp3")
    ∧ (m.file.mime_type = none →
        (fileInfoOf guess message_id m).mime_type
          = (guess ((m.file.name).getD "")).getD "audio/mpeg")
    ∧ (m.file.mime_type = none → guess ((m.file.name).getD "") = none →
        (fileInfoOf guess message_id m).mime_type = "audio/mpeg") := by
  refine ⟨fun h => ?_, fun h => ?_, fun h hg => ?_⟩
  · simp [fileInfoOf, h]
  · simp [fileInfoOf, h, Option.orElse]
  · simp [fileInfoOf, h, hg, Option.orElse]

/-- C9 witness: a media message with no name and no MIME type, with a
guesser that knows nothing, yields `file_7.mp3` and `audio/mpeg`. -/
theorem file_info_defaults_witness :
    (fileInfoOf (fun _ => none) 7 ⟨true, ⟨none, none, 3⟩⟩).file_name
        = "file_" ++ toString 7 ++ ".mp3"
    ∧ (fileInfoOf (fun _ => none) 7 ⟨true, ⟨none, none, 3⟩⟩).mime_type = "audio/mpeg" :=
  ⟨(file_info_defaults (fun _ => none) 7 ⟨true, ⟨none, none, 3⟩⟩).1 rfl,
   (file_info_defaults (fun _ => none) 7 ⟨true, ⟨none, none, 3⟩⟩).2.2 rfl rfl⟩

/-! ## Claim C10 -/

/-- C10: the progress callback's speed is the guarded quotient
`current / elapsed` — it satisfies `speed * elapsed = current` whenever
`elapsed > 0`, and is exactly 0 when `elapsed = 0` (indeed whenever
`elapsed ≤ 0`), so no division by zero is ever performed. -/
theorem progress_speed_guarded (current elapsed : ℚ) :
    (0 < elapsed → progressSpeed current elapsed * elapsed = current)
    ∧ (elapsed = 0 → progressSpeed current elapsed = 0)
    ∧ (elapsed ≤ 0 → progressSpeed current elapsed = 0) := by
  refine ⟨fun h => ?_, fun h => ?_, fun h => ?_⟩
  · rw [progressSpeed, if_pos h]
    exact div_mul_cancel₀ current (ne_of_gt h)
  · rw [progressSpeed, if_neg (by rw [h]; exact lt_irrefl 0)]
  · rw [progressSpeed, if_neg (not_lt.mpr h)]

/-- C10 witness: 10 bytes over 2 seconds reports a speed of 5 bytes per
second, and a zero elapsed time reports speed 0. -/
theorem progress_speed_guarded_witness :
    progressSpeed 10 2 * 2 = 10 ∧ progressSpeed 10 0 = 0 :=
  ⟨(progress_speed_guarded 10 2).1 (by norm_num),
   (progress_speed_guarded 10 0).2.1 rfl⟩

end LazyIO
